import Mathlib

/-!
# Program1_stage4 (`src/main.cpp`): validation, transformation, digest, handoff slot
and connection handling

A shallow embedding of `main.cpp`.

* A C++ `char` is kept as its integer value (an `Int`; on the target a `char` is a
  signed byte, so the values of interest lie in `-128 .. 127`), a `std::string` as the
  list of its characters.  Character constants are written by their ASCII codes:
  `'0' = 48`, `'9' = 57`, `'K' = 75`, `'V' = 86`, `'\n' = 10`, `'\0' = 0`.
* An `int` is kept as an `Int`; the one place where the program accumulates into an
  `int` (`processString`) wraps explicitly to 32 bits.
* Each of the four threads is embedded twice.  `producerConsole`, `consumer`,
  `clientReceiver` and `acceptorThread` are one loop iteration each, run without another
  thread in between: a function from the shared state and the values the environment
  hands to that iteration (the console token, the result of `recv`, `send`, `accept`) to
  the new state, the socket calls it made and how the iteration ends.  `exec` follows
  the same code piece by piece, with a position for every thread, so that the pieces of
  different threads interleave as the program lets them: only `buffer` is accessed
  under `mtx`.
-/

namespace Infotecs

/-- The characters of a `std::string`. -/
abbrev CString := List Int

/-! ## Pure functions -/

/-- The library test `::isdigit` in the "C" locale (the program never calls `setlocale`). -/
def isdigit (c : Int) : Bool :=
  decide (48 ≤ c) && decide (c ≤ 57)

/-- Function `isValidDigits`, main.cpp lines 22-25. -/
def isValidDigits (s : CString) : Bool :=
  !s.isEmpty && decide (s.length ≤ 64) && s.all isdigit

/-- One insertion step of the sort under the comparator `std::greater<char>`. -/
def insertGreater (c : Int) : CString → CString
  | [] => [c]
  | b :: l => if c > b then c :: b :: l else b :: insertGreater c l

/-- The call `std::sort(sorted.begin(), sorted.end(), std::greater<char>())`.  The
outcome of a sort of characters is fixed by the comparator (equal characters cannot be
told apart, see `sortGreater_unique`); it is computed here by insertion. -/
def sortGreater : CString → CString
  | [] => []
  | c :: l => insertGreater c (sortGreater l)

/-- The string literal `"KV"`. -/
def KV : CString := [75, 86]

/-- Function `transformInput`, main.cpp lines 28-39; `%` is C++ remainder (truncating). -/
def transformInput (input : CString) : CString :=
  let sorted := sortGreater input
  sorted.foldl
    (fun transformed c =>
      if Int.tmod (c - 48) 2 = 0 then transformed ++ KV else transformed ++ [c])
    []

/-- Conversion of an integer to a 32-bit two's complement `int`. -/
def wrapInt32 (x : Int) : Int :=
  (x + 2147483648) % 4294967296 - 2147483648

/-- Function `processString`, main.cpp lines 42-48; `sum` is an `int`. -/
def processString (data : CString) : Int :=
  data.foldl (fun sum c => if isdigit c then wrapInt32 (sum + (c - 48)) else sum) 0

/-- The call `std::to_string(int)`: the decimal rendering, with a leading `'-'` (45) when
negative. -/
def to_string (n : Int) : CString :=
  let digits := (Nat.toDigits 10 n.natAbs).map (fun d => (d.toNat : Int))
  if n < 0 then 45 :: digits else digits

/-! ## Shared state and the environment -/

/-- The globals of main.cpp (lines 13-19) that the threads share, together with the
set of client handles the process currently holds open (what `accept` has returned
and `close` has not yet released). `serverSocket` is written once before the threads
start and is not tracked. -/
structure State where
  buffer : CString
  finished : Bool
  clientSocket : Int
  openHandles : List Int
deriving DecidableEq

/-- The state at the start of `main`: `buffer` empty, `finished = false`,
`clientSocket = -1`, no client handle open. -/
def initial : State :=
  { buffer := [], finished := false, clientSocket := -1, openHandles := [] }

/-- A socket call made by a loop iteration, in program order. -/
inductive Call where
  | send (fd : Int) (message : CString)
  | close (fd : Int)
deriving DecidableEq

/-- How a loop iteration ends: `next` for the next iteration (`continue` or the end of
the body), `exit` for leaving the loop (`break`, or a false loop condition), `waiting`
for a consumer that found its wait predicate false and goes to sleep in `cv.wait`,
`killed` for an iteration that does not end because the process is terminated inside
one of its calls. -/
inductive Ctl where
  | next
  | exit
  | waiting
  | killed
deriving DecidableEq

/-- What a call of `send(fd, ..., 0)` does when the handle is open: it returns (`-1`
or a byte count), or, on a connection the peer has broken, it raises SIGPIPE.  The
calls at main.cpp lines 97, 124 and 135 pass flags `0` and the program never changes
the disposition of SIGPIPE, so the signal terminates the process inside the call. -/
inductive SendOutcome where
  | returned (n : Int)
  | killed
deriving DecidableEq

/-- What `recv(clientSocket, buf, sizeof(buf) - 1, 0)` hands back: its return value
and the bytes it stored at the start of `buf`. -/
structure Recv where
  received : Int
  data : CString
deriving DecidableEq

/-- The effect of `close(fd)` on the open handles. -/
def closeHandle (s : State) (fd : Int) : State :=
  { s with openHandles := s.openHandles.filter (fun h => decide (h ≠ fd)) }

/-- The outcome of `send(fd, ..., 0)`: it returns `-1` on a handle that is not open
(EBADF, no signal); on an open handle the outcome is what the connection gives
(`wire`): a return value, or SIGPIPE and the end of the process. -/
def sendResult (openHandles : List Int) (fd : Int) (wire : SendOutcome) : SendOutcome :=
  if fd ∈ openHandles then wire else SendOutcome.returned (-1)

/-- The effect of `accept(serverSocket, ...)` returning `newSocket`: on success the
returned handle is open. -/
def acceptCall (s : State) (newSocket : Int) : State :=
  if newSocket = -1 then s else { s with openHandles := newSocket :: s.openHandles }

/-- The contents of the `std::string` built from a NUL-terminated `char` array. -/
def cstr (buf : CString) : CString :=
  buf.takeWhile (fun c => decide (c ≠ 0))

/-- The string literal `"exit"`. -/
def exitToken : CString := [101, 120, 105, 116]

/-- The string literal `"SUM:"`. -/
def sumPrefix : CString := [83, 85, 77, 58]

/-- The string literal `"ERROR: only digits, max 64 chars\n"`. -/
def errorMessage : CString :=
  [69, 82, 82, 79, 82, 58, 32, 111, 110, 108, 121, 32, 100, 105, 103, 105, 116, 115, 44,
   32, 109, 97, 120, 32, 54, 52, 32, 99, 104, 97, 114, 115, 10]

/-- The line `"SUM:" + std::to_string(sum) + "\n"`. -/
def sumMessage (sum : Int) : CString :=
  sumPrefix ++ to_string sum ++ [10]

/-! ## The handoff slot -/

/-- The producer's locked assignment `buffer = transformed` (main.cpp lines 70-73). -/
def put (s : State) (item : CString) : State :=
  { s with buffer := item }

/-- What the consumer's locked section yields. -/
inductive TakeResult where
  | blocked
  | endSentinel
  | item (data : CString)
deriving DecidableEq

/-- The consumer's locked section, main.cpp lines 81-88, at the instant the thread
holds `mtx` and tests the wait predicate `!buffer.empty() || finished`: `blocked` when
the predicate is false there (the thread then goes to sleep inside `cv.wait`; whether
and when it wakes is decided by the notifications, see `exec`), otherwise the `break`
on `finished && buffer.empty()` or the read-and-clear of `buffer`.  The producer's
assignment to `buffer` is made under `mtx` too; the store `finished = true` is not
(line 58), which only `exec` accounts for. -/
def take (s : State) : TakeResult × State :=
  if !(!s.buffer.isEmpty || s.finished) then (TakeResult.blocked, s)
  else if s.finished && s.buffer.isEmpty then (TakeResult.endSentinel, s)
  else (TakeResult.item s.buffer, { s with buffer := [] })

/-! ## The four loops, one iteration each -/

/-- One iteration of `producerConsole` (main.cpp lines 52-75) on the token read from
the console. -/
def producerConsole (s : State) (input : CString) : State × List Call × Ctl :=
  if input = exitToken then ({ s with finished := true }, [], Ctl.exit)
  else if !isValidDigits input then (s, [], Ctl.next)
  else
    let transformed := transformInput input
    (put s transformed, [], Ctl.next)

/-- One iteration of `consumer` (main.cpp lines 80-104) run without another thread
in between; `wire` is what the connection gives for the `send`, if one is made. -/
def consumer (s : State) (wire : SendOutcome) : State × List Call × Ctl :=
  match take s with
  | (TakeResult.blocked, s1) => (s1, [], Ctl.waiting)
  | (TakeResult.endSentinel, s1) => (s1, [], Ctl.exit)
  | (TakeResult.item data, s1) =>
    let sum := processString data
    if s1.clientSocket ≠ -1 then
      let message := sumMessage sum
      match sendResult s1.openHandles s1.clientSocket wire with
      | SendOutcome.killed => (s1, [Call.send s1.clientSocket message], Ctl.killed)
      | SendOutcome.returned sent =>
        if sent = -1 then
          ({ closeHandle s1 s1.clientSocket with clientSocket := -1 },
            [Call.send s1.clientSocket message, Call.close s1.clientSocket], Ctl.next)
        else (s1, [Call.send s1.clientSocket message], Ctl.next)
    else (s1, [], Ctl.next)

/-- One iteration of `clientReceiver` (main.cpp lines 110-142) on the result `r` of
its `recv`, if one is made, run without another thread in between, with the calls it
makes.  The value `send` returns is not looked at by the code; a `send` that raises
SIGPIPE ends the process at that call, which `exec` accounts for. -/
def clientReceiver (s : State) (r : Recv) : State × List Call × Ctl :=
  if s.finished then (s, [], Ctl.exit)
  else if s.clientSocket = -1 then (s, [], Ctl.next)
  else if r.received > 0 then
    let input := (cstr (r.data.take r.received.toNat ++ [0])).filter (fun c => decide (c ≠ 10))
    if !isValidDigits input then
      (s, [Call.send s.clientSocket errorMessage], Ctl.next)
    else
      let transformed := transformInput input
      let sum := processString transformed
      (s, [Call.send s.clientSocket (sumMessage sum)], Ctl.next)
  else if r.received = 0 then
    ({ closeHandle s s.clientSocket with clientSocket := -1 },
      [Call.close s.clientSocket], Ctl.next)
  else (s, [], Ctl.next)

/-- One iteration of `acceptorThread` (main.cpp lines 147-159) on the value
`newSocket` that `accept` returned, run without another thread in between. -/
def acceptorThread (s : State) (newSocket : Int) : State × List Call × Ctl :=
  let s0 := acceptCall s newSocket
  if newSocket = -1 then (s0, [], Ctl.next)
  else if s0.clientSocket ≠ -1 then
    ({ closeHandle s0 s0.clientSocket with clientSocket := newSocket },
      [Call.close s0.clientSocket], Ctl.next)
  else ({ s0 with clientSocket := newSocket }, [], Ctl.next)

/-! ## Schedules of whole iterations -/

/-- Where `producerConsole` stands: reading the next token (line 55), before
`cv.notify_all()` (line 59), before `cv.notify_one()` (line 74), or past its
`break`. -/
inductive ProducerPc where
  | reading
  | notifyAll
  | notifyOne
  | stopped
deriving DecidableEq

/-- Where `consumer` stands: before the locked section (line 81); `tested`, with
`mtx` held and the wait predicate found false, not yet blocked; `asleep` inside
`cv.wait` with `mtx` released; with the item read, before the test of line 95; before
the `send` of line 97; before the `close` of line 100; before the assignment of line
101; or past its `break`. -/
inductive ConsumerPc where
  | top
  | tested
  | asleep
  | dispatch (data : CString)
  | sending (data : CString)
  | closing
  | clearing
  | stopped
deriving DecidableEq

/-- Where `clientReceiver` stands: at the loop condition (line 110); inside
`recv(fd, ...)` (line 115); with the reply built, before its `send` (line 124 or
135); before the `close` of line 139; before the assignment of line 140; or past the
loop. -/
inductive ReceiverPc where
  | top
  | receiving (fd : Int)
  | replying (message : CString)
  | closing
  | clearing
  | stopped
deriving DecidableEq

/-- Where `acceptorThread` stands: inside `accept` (line 148); with the new handle,
before the test and `close` of lines 155-157; before the assignment of line 158. -/
inductive AcceptorPc where
  | accepting
  | replacing (newSocket : Int)
  | assigning (newSocket : Int)
deriving DecidableEq

/-- The running process: the shared state, where each thread stands, the socket calls
made so far (oldest first), and whether the process is still alive. -/
structure Sys where
  shared : State
  producerPc : ProducerPc
  consumerPc : ConsumerPc
  receiverPc : ReceiverPc
  acceptorPc : AcceptorPc
  calls : List Call
  alive : Bool
deriving DecidableEq

/-- The process when the four threads have just been started (main.cpp lines
190-193). -/
def initialSys : Sys :=
  { shared := initial, producerPc := ProducerPc.reading, consumerPc := ConsumerPc.top,
    receiverPc := ReceiverPc.top, acceptorPc := AcceptorPc.accepting, calls := [],
    alive := true }

/-- One step of one thread, with what the environment hands to it. -/
inductive Event where
  | producerRead (input : CString)
  | producerNotify
  | consumerLock
  | consumerSleep
  | consumerCheck
  | consumerSend (wire : SendOutcome)
  | consumerClose
  | consumerClear
  | receiverTop
  | receiverRecv (r : Recv)
  | receiverSend (wire : SendOutcome)
  | receiverClose
  | receiverClear
  | acceptReturn (newSocket : Int)
  | acceptorClose
  | acceptorAssign
deriving DecidableEq

/-- The effect of `cv.notify_one()` or `cv.notify_all()` on the one thread that ever
waits on `cv`: a sleeping consumer is woken and will test its predicate again; a
consumer that is not asleep is not affected and the notification is gone. -/
def notify : ConsumerPc → ConsumerPc
  | ConsumerPc.asleep => ConsumerPc.top
  | pc => pc

/-- The reply `clientReceiver` builds from a received chunk (main.cpp lines 117-134). -/
def replyMessage (r : Recv) : CString :=
  let input := (cstr (r.data.take r.received.toNat ++ [0])).filter (fun c => decide (c ≠ 10))
  if !isValidDigits input then errorMessage
  else
    let transformed := transformInput input
    let sum := processString transformed
    sumMessage sum

/-- The step `e` from the process state `s`, or `none` when the thread of `e` does not
stand at that step, the process has been terminated, the step needs `mtx` while the
consumer holds it, or the value handed to `accept` is one the operating system cannot
return.  No step wakes a sleeping consumer without a notification: the library allows
such a wake-up but does not promise one. -/
def exec (s : Sys) (e : Event) : Option Sys :=
  if s.alive = false then none
  else
    match e with
    | Event.producerRead input =>
      -- lines 55-73: the token is read; `exit` stores `finished` without `mtx`, a valid
      -- token is stored in `buffer` under `mtx`
      match s.producerPc with
      | ProducerPc.reading =>
        if input = exitToken then
          some { s with shared := (producerConsole s.shared input).1,
                        producerPc := ProducerPc.notifyAll }
        else if !isValidDigits input then some s
        else if s.consumerPc = ConsumerPc.tested then none
        else
          some { s with shared := (producerConsole s.shared input).1,
                        producerPc := ProducerPc.notifyOne }
      | _ => none
    | Event.producerNotify =>
      -- line 59 (`notify_all`, then `break`) or line 74 (`notify_one`)
      match s.producerPc with
      | ProducerPc.notifyAll =>
        some { s with consumerPc := notify s.consumerPc, producerPc := ProducerPc.stopped }
      | ProducerPc.notifyOne =>
        some { s with consumerPc := notify s.consumerPc, producerPc := ProducerPc.reading }
      | _ => none
    | Event.consumerLock =>
      -- lines 81-88: lock, test of the wait predicate, `break` or read-and-clear
      match s.consumerPc with
      | ConsumerPc.top =>
        match take s.shared with
        | (TakeResult.blocked, sh) => some { s with shared := sh, consumerPc := ConsumerPc.tested }
        | (TakeResult.endSentinel, sh) =>
          some { s with shared := sh, consumerPc := ConsumerPc.stopped }
        | (TakeResult.item data, sh) =>
          some { s with shared := sh, consumerPc := ConsumerPc.dispatch data }
      | _ => none
    | Event.consumerSleep =>
      -- inside `cv.wait`: `mtx` is released and the thread blocks
      match s.consumerPc with
      | ConsumerPc.tested => some { s with consumerPc := ConsumerPc.asleep }
      | _ => none
    | Event.consumerCheck =>
      -- line 95
      match s.consumerPc with
      | ConsumerPc.dispatch data =>
        if s.shared.clientSocket ≠ -1 then some { s with consumerPc := ConsumerPc.sending data }
        else some { s with consumerPc := ConsumerPc.top }
      | _ => none
    | Event.consumerSend wire =>
      -- lines 96-98
      match s.consumerPc with
      | ConsumerPc.sending data =>
        let message := sumMessage (processString data)
        let made := s.calls ++ [Call.send s.shared.clientSocket message]
        match sendResult s.shared.openHandles s.shared.clientSocket wire with
        | SendOutcome.killed => some { s with calls := made, alive := false }
        | SendOutcome.returned sent =>
          if sent = -1 then some { s with calls := made, consumerPc := ConsumerPc.closing }
          else some { s with calls := made, consumerPc := ConsumerPc.top }
      | _ => none
    | Event.consumerClose =>
      -- line 100
      match s.consumerPc with
      | ConsumerPc.closing =>
        some { s with shared := closeHandle s.shared s.shared.clientSocket,
                      calls := s.calls ++ [Call.close s.shared.clientSocket],
                      consumerPc := ConsumerPc.clearing }
      | _ => none
    | Event.consumerClear =>
      -- line 101
      match s.consumerPc with
      | ConsumerPc.clearing =>
        some { s with shared := { s.shared with clientSocket := -1 },
                      consumerPc := ConsumerPc.top }
      | _ => none
    | Event.receiverTop =>
      -- lines 110-115: loop condition, test of `clientSocket`, call of `recv`
      match s.receiverPc with
      | ReceiverPc.top =>
        if s.shared.finished then some { s with receiverPc := ReceiverPc.stopped }
        else if s.shared.clientSocket = -1 then some s
        else some { s with receiverPc := ReceiverPc.receiving s.shared.clientSocket }
      | _ => none
    | Event.receiverRecv r =>
      -- lines 115-123, 128-134, 137: `recv` returns
      match s.receiverPc with
      | ReceiverPc.receiving _ =>
        if r.received > 0 then some { s with receiverPc := ReceiverPc.replying (replyMessage r) }
        else if r.received = 0 then some { s with receiverPc := ReceiverPc.closing }
        else some { s with receiverPc := ReceiverPc.top }
      | _ => none
    | Event.receiverSend wire =>
      -- line 124 or 135: the reply goes to the handle `clientSocket` holds now
      match s.receiverPc with
      | ReceiverPc.replying message =>
        let made := s.calls ++ [Call.send s.shared.clientSocket message]
        match sendResult s.shared.openHandles s.shared.clientSocket wire with
        | SendOutcome.killed => some { s with calls := made, alive := false }
        | SendOutcome.returned _ => some { s with calls := made, receiverPc := ReceiverPc.top }
      | _ => none
    | Event.receiverClose =>
      -- line 139
      match s.receiverPc with
      | ReceiverPc.closing =>
        some { s with shared := closeHandle s.shared s.shared.clientSocket,
                      calls := s.calls ++ [Call.close s.shared.clientSocket],
                      receiverPc := ReceiverPc.clearing }
      | _ => none
    | Event.receiverClear =>
      -- line 140
      match s.receiverPc with
      | ReceiverPc.clearing =>
        some { s with shared := { s.shared with clientSocket := -1 },
                      receiverPc := ReceiverPc.top }
      | _ => none
    | Event.acceptReturn newSocket =>
      -- lines 148-153: `accept` returns
      match s.acceptorPc with
      | AcceptorPc.accepting =>
        if newSocket = -1 then some s
        else if 0 ≤ newSocket ∧ newSocket ∉ s.shared.openHandles then
          some { s with shared := acceptCall s.shared newSocket,
                        acceptorPc := AcceptorPc.replacing newSocket }
        else none
      | _ => none
    | Event.acceptorClose =>
      -- lines 155-157
      match s.acceptorPc with
      | AcceptorPc.replacing newSocket =>
        if s.shared.clientSocket ≠ -1 then
          some { s with shared := closeHandle s.shared s.shared.clientSocket,
                        calls := s.calls ++ [Call.close s.shared.clientSocket],
                        acceptorPc := AcceptorPc.assigning newSocket }
        else some { s with acceptorPc := AcceptorPc.assigning newSocket }
      | _ => none
    | Event.acceptorAssign =>
      -- line 158
      match s.acceptorPc with
      | AcceptorPc.assigning newSocket =>
        some { s with shared := { s.shared with clientSocket := newSocket },
                      acceptorPc := AcceptorPc.accepting }
      | _ => none

/-- The process state after a schedule, `none` when one of its steps cannot be
taken. -/
def run (s : Sys) : List Event → Option Sys
  | [] => some s
  | e :: rest =>
    match exec s e with
    | some s1 => run s1 rest
    | none => none

/-- The schedule of the lost wake-up: the consumer tests its wait predicate (slot
empty, `finished` not set), the console thread reads `exit`, stores `finished = true`
without `mtx` and calls `notify_all` while no thread is waiting, and only then the
consumer blocks in `cv.wait`. -/
def lostWakeup : List Event :=
  [Event.consumerLock, Event.producerRead exitToken, Event.producerNotify,
   Event.consumerSleep]

/-- The process after `lostWakeup`: `finished` is set, the slot is empty, the console
thread has left its loop and the consumer is blocked in `cv.wait`. -/
def blockedConsumer : Sys :=
  { shared := { buffer := [], finished := true, clientSocket := -1, openHandles := [] },
    producerPc := ProducerPc.stopped, consumerPc := ConsumerPc.asleep,
    receiverPc := ReceiverPc.top, acceptorPc := AcceptorPc.accepting,
    calls := [], alive := true }

/-- The schedule of a reply sent to another connection: connection 5 is accepted and
`"1234"` is received on it; before the reply is sent connection 6 is accepted and
replaces 5. -/
def misdirectedReply : List Event :=
  [Event.acceptReturn 5, Event.acceptorClose, Event.acceptorAssign,
   Event.receiverTop, Event.receiverRecv ⟨4, [49, 50, 51, 52]⟩,
   Event.acceptReturn 6, Event.acceptorClose, Event.acceptorAssign,
   Event.receiverSend (SendOutcome.returned 6)]

/-- The open client handles are exactly the active connection, when there is one. -/
def singleConnection (s : State) : Prop :=
  s.openHandles = if s.clientSocket = -1 then [] else [s.clientSocket]

instance decidableSingleConnection (s : State) : Decidable (singleConnection s) := by
  unfold singleConnection
  infer_instance

/-! ## Specification-side definitions -/

/-- The sum of the decimal values of the digit characters of a string. -/
def digitSum (data : CString) : Int :=
  ((data.filter isdigit).map (fun c => c - 48)).sum

/-- The sum of the odd digits of a string of digits. -/
def oddDigitSum (s : CString) : Int :=
  ((s.map (fun c => c - 48)).filter (fun d => decide (d % 2 = 1))).sum

/-- The replacement the specification describes for one digit character: an even
digit (`0`, `2`, `4`, `6`, `8`) becomes the marker, an odd digit stays. -/
def markEven (c : Int) : CString :=
  if c ∈ [48, 50, 52, 54, 56] then KV else [c]

/-! ## Lemmas on the pure functions -/

theorem isdigit_iff (c : Int) : isdigit c = true ↔ 48 ≤ c ∧ c ≤ 57 := by
  simp [isdigit]

theorem isValidDigits_iff (s : CString) :
    isValidDigits s = true ↔ s ≠ [] ∧ s.length ≤ 64 ∧ ∀ c ∈ s, 48 ≤ c ∧ c ≤ 57 := by
  cases s with
  | nil => simp [isValidDigits]
  | cons a l => simp [isValidDigits, isdigit_iff, and_assoc]

theorem perm_insertGreater (c : Int) (l : CString) : (insertGreater c l).Perm (c :: l) := by
  induction l with
  | nil => simp [insertGreater]
  | cons b l ih =>
    simp only [insertGreater]
    split
    · exact List.Perm.refl _
    · exact (List.Perm.cons b ih).trans (List.Perm.swap c b l)

theorem perm_sortGreater (l : CString) : (sortGreater l).Perm l := by
  induction l with
  | nil => simp [sortGreater]
  | cons c l ih =>
    simp only [sortGreater]
    exact (perm_insertGreater c _).trans (List.Perm.cons c ih)

theorem pairwise_insertGreater (c : Int) (l : CString) (h : l.Pairwise (fun a b => a ≥ b)) :
    (insertGreater c l).Pairwise (fun a b => a ≥ b) := by
  induction l with
  | nil => simp [insertGreater]
  | cons b l ih =>
    simp only [insertGreater]
    rw [List.pairwise_cons] at h
    split
    · rename_i hcb
      refine List.Pairwise.cons ?_ (List.Pairwise.cons h.1 h.2)
      intro x hx
      rcases List.mem_cons.mp hx with rfl | hx
      · omega
      · have := h.1 x hx
        omega
    · rename_i hcb
      refine List.Pairwise.cons ?_ (ih h.2)
      intro x hx
      rcases List.mem_cons.mp ((perm_insertGreater c l).subset hx) with rfl | hx
      · omega
      · exact h.1 x hx

theorem pairwise_sortGreater (l : CString) : (sortGreater l).Pairwise (fun a b => a ≥ b) := by
  induction l with
  | nil => simp [sortGreater]
  | cons c l ih => exact pairwise_insertGreater c _ ih

/-- Any descending arrangement of the characters of `l` is `sortGreater l`. -/
theorem sortGreater_unique (l sorted : CString) (hp : sorted.Perm l)
    (hs : sorted.Pairwise (fun a b => a ≥ b)) : sorted = sortGreater l :=
  List.eq_of_perm_of_sorted (hp.trans (perm_sortGreater l).symm) hs (pairwise_sortGreater l)

/-- The loop of `transformInput` appends to its accumulator one block per character. -/
theorem foldl_transform (l acc : CString) :
    l.foldl
      (fun transformed c =>
        if Int.tmod (c - 48) 2 = 0 then transformed ++ KV else transformed ++ [c]) acc
      = acc ++ l.flatMap (fun c => if Int.tmod (c - 48) 2 = 0 then KV else [c]) := by
  induction l generalizing acc with
  | nil => simp
  | cons c l ih =>
    simp only [List.foldl_cons, List.flatMap_cons]
    rw [ih]
    split <;> simp

theorem transformInput_eq_flatMap (s : CString) :
    transformInput s
      = (sortGreater s).flatMap (fun c => if Int.tmod (c - 48) 2 = 0 then KV else [c]) := by
  simp [transformInput, foldl_transform]

/-- On a digit character the parity test of the code picks the even digits. -/
theorem parity_eq_markEven (c : Int) (h : 48 ≤ c ∧ c ≤ 57) :
    (if Int.tmod (c - 48) 2 = 0 then KV else [c]) = markEven c := by
  obtain ⟨h1, h2⟩ := h
  interval_cases c <;> decide

theorem wrapInt32_of_range (x : Int) (h0 : -2147483648 ≤ x) (h1 : x < 2147483648) :
    wrapInt32 x = x := by
  unfold wrapInt32
  omega

theorem wrapInt32_range (x : Int) : -2147483648 ≤ wrapInt32 x ∧ wrapInt32 x < 2147483648 := by
  unfold wrapInt32
  omega

theorem digitSum_nil : digitSum [] = 0 := by
  simp [digitSum]

theorem digitSum_cons (c : Int) (l : CString) :
    digitSum (c :: l) = (if isdigit c then c - 48 else 0) + digitSum l := by
  unfold digitSum
  by_cases h : isdigit c = true <;> simp [List.filter_cons, h]

theorem digitSum_append (a b : CString) : digitSum (a ++ b) = digitSum a + digitSum b := by
  simp [digitSum]

theorem digitSum_nonneg (l : CString) : 0 ≤ digitSum l := by
  induction l with
  | nil => simp [digitSum_nil]
  | cons c l ih =>
    rw [digitSum_cons]
    split
    · rename_i h
      have := (isdigit_iff c).mp h
      omega
    · omega

theorem digitSum_le (l : CString) : digitSum l ≤ 9 * l.length := by
  induction l with
  | nil => simp [digitSum_nil]
  | cons c l ih =>
    rw [digitSum_cons]
    simp only [List.length_cons]
    split
    · rename_i h
      have := (isdigit_iff c).mp h
      push_cast
      omega
    · push_cast
      omega

theorem digitSum_perm {a b : CString} (h : a.Perm b) : digitSum a = digitSum b := by
  unfold digitSum
  exact ((h.filter _).map _).sum_eq

/-- The loop of `processString` from an accumulator that it cannot overflow. -/
theorem foldl_process (l : CString) (acc : Int) (h0 : 0 ≤ acc)
    (h1 : acc + digitSum l < 2147483648) :
    l.foldl (fun sum c => if isdigit c then wrapInt32 (sum + (c - 48)) else sum) acc
      = acc + digitSum l := by
  induction l generalizing acc with
  | nil => simp [digitSum_nil]
  | cons c l ih =>
    rw [digitSum_cons] at h1 ⊢
    have hl := digitSum_nonneg l
    simp only [List.foldl_cons]
    by_cases h : isdigit c = true
    · have hc := (isdigit_iff c).mp h
      simp only [h, if_true] at h1 ⊢
      rw [wrapInt32_of_range _ (by omega) (by omega)]
      rw [ih _ (by omega) (by omega)]
      omega
    · simp only [h, Bool.false_eq_true, if_false] at h1 ⊢
      rw [ih _ h0 (by omega)]
      omega

theorem processString_eq_digitSum (data : CString) (h : digitSum data < 2147483648) :
    processString data = digitSum data := by
  unfold processString
  rw [foldl_process data 0 (le_refl 0) (by omega)]
  omega

/-- The loop of `processString` keeps its accumulator inside the range of an `int`. -/
theorem foldl_process_range (l : CString) (acc : Int)
    (h : -2147483648 ≤ acc ∧ acc < 2147483648) :
    -2147483648 ≤ l.foldl (fun sum c => if isdigit c then wrapInt32 (sum + (c - 48)) else sum) acc
      ∧ l.foldl (fun sum c => if isdigit c then wrapInt32 (sum + (c - 48)) else sum) acc
          < 2147483648 := by
  induction l generalizing acc with
  | nil => simpa using h
  | cons c l ih =>
    simp only [List.foldl_cons]
    apply ih
    split
    · exact wrapInt32_range _
    · exact h

theorem processString_range (data : CString) :
    -2147483648 ≤ processString data ∧ processString data < 2147483648 :=
  foldl_process_range data 0 (by omega)

theorem digitSum_replicate_nine (n : Nat) : digitSum (List.replicate n 57) = 9 * n := by
  induction n with
  | zero => simp [digitSum_nil]
  | succ n ih =>
    rw [List.replicate_succ, digitSum_cons, ih]
    have : isdigit 57 = true := by decide
    simp only [this, if_true]
    push_cast
    omega

theorem oddDigitSum_cons (c : Int) (l : CString) :
    oddDigitSum (c :: l) = (if (c - 48) % 2 = 1 then c - 48 else 0) + oddDigitSum l := by
  unfold oddDigitSum
  by_cases h : (c - 48) % 2 = 1 <;> simp [List.filter_cons, h]

theorem oddDigitSum_perm {a b : CString} (h : a.Perm b) : oddDigitSum a = oddDigitSum b := by
  unfold oddDigitSum
  exact ((h.map _).filter _).sum_eq

/-- The digit sum of the block `transformInput` writes for one digit character. -/
theorem digitSum_block (c : Int) (h : 48 ≤ c ∧ c ≤ 57) :
    digitSum (if Int.tmod (c - 48) 2 = 0 then KV else [c])
      = (if (c - 48) % 2 = 1 then c - 48 else 0) := by
  obtain ⟨h1, h2⟩ := h
  interval_cases c <;> decide

theorem digitSum_flatMap_blocks (l : CString) (h : ∀ c ∈ l, 48 ≤ c ∧ c ≤ 57) :
    digitSum (l.flatMap (fun c => if Int.tmod (c - 48) 2 = 0 then KV else [c]))
      = oddDigitSum l ∧ 0 ≤ oddDigitSum l ∧ oddDigitSum l ≤ 9 * l.length := by
  induction l with
  | nil => simp [digitSum_nil, oddDigitSum]
  | cons c l ih =>
    have hc := h c (List.mem_cons_self c l)
    obtain ⟨ih1, ih2, ih3⟩ := ih (fun x hx => h x (List.mem_cons_of_mem c hx))
    rw [List.flatMap_cons, digitSum_append, digitSum_block c hc, oddDigitSum_cons, ih1]
    simp only [List.length_cons]
    push_cast
    refine ⟨trivial, ?_, ?_⟩ <;> split <;> omega

/-- The digest of a transformed validated input is the sum of its odd digits. -/
theorem digest_valid (s : CString) (h : isValidDigits s = true) :
    processString (transformInput s) = oddDigitSum s := by
  obtain ⟨_, hlen, hdig⟩ := (isValidDigits_iff s).mp h
  have hsorted : ∀ c ∈ sortGreater s, 48 ≤ c ∧ c ≤ 57 :=
    fun c hc => hdig c ((perm_sortGreater s).subset hc)
  obtain ⟨h1, _, h3⟩ := digitSum_flatMap_blocks (sortGreater s) hsorted
  have hl : (sortGreater s).length = s.length := (perm_sortGreater s).length_eq
  have hp : oddDigitSum (sortGreater s) = oddDigitSum s := oddDigitSum_perm (perm_sortGreater s)
  rw [transformInput_eq_flatMap, processString_eq_digitSum _ (by rw [h1]; omega), h1, hp]

/-- A transformed validated input is not the empty string. -/
theorem transformInput_ne_nil (s : CString) (h : isValidDigits s = true) :
    transformInput s ≠ [] := by
  obtain ⟨hne, _, _⟩ := (isValidDigits_iff s).mp h
  have hs : sortGreater s ≠ [] := by
    intro h0
    have := (perm_sortGreater s).length_eq
    rw [h0] at this
    exact hne (List.length_eq_zero.mp this.symm)
  rw [transformInput_eq_flatMap]
  cases hsort : sortGreater s with
  | nil => exact absurd hsort hs
  | cons c l =>
    rw [List.flatMap_cons]
    split <;> simp [KV]

/-! ## The claims on the pure functions -/

/-- C1: `isValidDigits s` is true exactly when `s` is non-empty, has at most 64
characters and every character is a decimal digit `'0'..'9'`; so it is false for the
empty string, for every string of 65 or more characters, for every string with a
non-digit character, and for `"abc"`. -/
theorem isValidDigits_correct :
    (∀ s : CString,
      isValidDigits s = true ↔ s ≠ [] ∧ s.length ≤ 64 ∧ ∀ c ∈ s, 48 ≤ c ∧ c ≤ 57)
    ∧ isValidDigits [] = false
    ∧ (∀ s : CString, 65 ≤ s.length → isValidDigits s = false)
    ∧ (∀ s : CString, (∃ c ∈ s, ¬ (48 ≤ c ∧ c ≤ 57)) → isValidDigits s = false)
    ∧ isValidDigits [97, 98, 99] = false := by
  refine ⟨isValidDigits_iff, by decide, ?_, ?_, by decide⟩
  · intro s hs
    rw [Bool.eq_false_iff]
    intro h
    have := ((isValidDigits_iff s).mp h).2.1
    omega
  · rintro s ⟨c, hc, hnd⟩
    rw [Bool.eq_false_iff]
    intro h
    exact hnd (((isValidDigits_iff s).mp h).2.2 c hc)

/-- C1 at concrete inputs: a string of 65 zeros and the string `"12a"` are rejected,
`"0123456789"` is accepted. -/
theorem isValidDigits_correct_witness :
    isValidDigits (List.replicate 65 48) = false
    ∧ isValidDigits [49, 50, 97] = false
    ∧ isValidDigits [48, 49, 50, 51, 52, 53, 54, 55, 56, 57] = true :=
  ⟨isValidDigits_correct.2.2.1 (List.replicate 65 48) (by decide),
   isValidDigits_correct.2.2.2.1 [49, 50, 97] ⟨97, by decide, by decide⟩,
   (isValidDigits_correct.1 [48, 49, 50, 51, 52, 53, 54, 55, 56, 57]).mpr (by decide)⟩

/-- C2: for a validated input `s`, `transformInput s` is the descending-sorted
arrangement of the characters of `s` in which every even digit is replaced by `"KV"`
and every odd digit is copied, in that order; `"1234"` gives `"KV3KV1"` and `"13579"`
gives `"97531"`. -/
theorem transformInput_correct :
    (∀ s : CString, isValidDigits s = true →
      ∃ sorted : CString, sorted.Perm s ∧ sorted.Pairwise (fun a b => a ≥ b)
        ∧ transformInput s = sorted.flatMap markEven)
    ∧ transformInput [49, 50, 51, 52] = [75, 86, 51, 75, 86, 49]
    ∧ transformInput [49, 51, 53, 55, 57] = [57, 55, 53, 51, 49] := by
  refine ⟨?_, by decide, by decide⟩
  intro s h
  refine ⟨sortGreater s, perm_sortGreater s, pairwise_sortGreater s, ?_⟩
  obtain ⟨_, _, hdig⟩ := (isValidDigits_iff s).mp h
  rw [transformInput_eq_flatMap]
  apply List.flatMap_congr
  intro c hc
  exact parity_eq_markEven c (hdig c ((perm_sortGreater s).subset hc))

/-- C2 at the input `"2907"`: the sorted arrangement is `"9720"` and the result
`"97KVKV"`. -/
theorem transformInput_correct_witness :
    isValidDigits [50, 57, 48, 55] = true
    ∧ ∃ sorted : CString, sorted.Perm [50, 57, 48, 55] ∧ sorted.Pairwise (fun a b => a ≥ b)
        ∧ transformInput [50, 57, 48, 55] = sorted.flatMap markEven :=
  ⟨by decide, transformInput_correct.1 [50, 57, 48, 55] (by decide)⟩

/-- C3, the claim as written, fails on a string of 238609295 characters `'9'`: the
digit sum is 2147483655, which `processString` (an `int`) does not return. -/
theorem processString_overflow :
    processString (List.replicate 238609295 57) ≠ digitSum (List.replicate 238609295 57) := by
  intro h
  have hr := (processString_range (List.replicate 238609295 57)).2
  rw [h, digitSum_replicate_nine] at hr
  omega

/-- C3 (amended): for every string whose digit sum fits an `int` (at most
2147483647), in particular for every string of at most 238609294 characters,
`processString` returns the sum of the decimal values of its digit characters,
non-digit characters such as `'K'` and `'V'` contributing 0; on a string with no
digit character it returns 0; and `processString (a ++ b)` is
`processString a + processString b` whenever the digit sum of `a ++ b` fits. -/
theorem processString_digitSum :
    (∀ data : CString, digitSum data ≤ 2147483647 → processString data = digitSum data)
    ∧ (∀ data : CString, data.length ≤ 238609294 → processString data = digitSum data)
    ∧ (∀ data : CString, (∀ c ∈ data, isdigit c = false) → processString data = 0)
    ∧ processString KV = 0
    ∧ (∀ a b : CString, digitSum (a ++ b) ≤ 2147483647 →
        processString (a ++ b) = processString a + processString b) := by
  refine ⟨?_, ?_, ?_, by decide, ?_⟩
  · intro data h
    exact processString_eq_digitSum data (by omega)
  · intro data h
    have := digitSum_le data
    exact processString_eq_digitSum data (by omega)
  · intro data h
    have h0 : digitSum data = 0 := by
      unfold digitSum
      rw [List.filter_eq_nil_iff.mpr (fun c hc => by simp [h c hc])]
      simp
    rw [processString_eq_digitSum data (by omega), h0]
  · intro a b h
    have ha := digitSum_nonneg a
    have hb := digitSum_nonneg b
    rw [digitSum_append] at h
    rw [processString_eq_digitSum (a ++ b) (by rw [digitSum_append]; omega),
      processString_eq_digitSum a (by omega), processString_eq_digitSum b (by omega),
      digitSum_append]

/-- C3 (amended) at concrete inputs: `"a1K9"` has digest 10, and the digest of
`"12" ++ "x3"` is the sum of the digests of its parts. -/
theorem processString_digitSum_witness :
    processString [97, 49, 75, 57] = digitSum [97, 49, 75, 57]
    ∧ digitSum [97, 49, 75, 57] = 10
    ∧ processString [75, 86, 75, 86] = 0
    ∧ processString ([49, 50] ++ [120, 51]) = processString [49, 50] + processString [120, 51] :=
  ⟨processString_digitSum.1 [97, 49, 75, 57] (by decide), by decide,
   processString_digitSum.2.2.1 [75, 86, 75, 86] (by decide),
   processString_digitSum.2.2.2.2 [49, 50] [120, 51] (by decide)⟩

/-- C4: for a validated input `s`, `processString (transformInput s)` is the sum of
the odd digits of `s`, is the same for every rearrangement of `s`, and is 0 when every
digit of `s` is even; `"1234"` gives 4, `"13579"` gives 25, `"2468"` gives 0. -/
theorem digest_transformInput :
    (∀ s : CString, isValidDigits s = true →
      processString (transformInput s) = oddDigitSum s)
    ∧ (∀ s t : CString, isValidDigits s = true → t.Perm s →
      processString (transformInput t) = processString (transformInput s))
    ∧ (∀ s : CString, isValidDigits s = true → (∀ c ∈ s, (c - 48) % 2 = 0) →
      processString (transformInput s) = 0)
    ∧ processString (transformInput [49, 50, 51, 52]) = 4
    ∧ processString (transformInput [49, 51, 53, 55, 57]) = 25
    ∧ processString (transformInput [50, 52, 54, 56]) = 0 := by
  refine ⟨digest_valid, ?_, ?_, by decide, by decide, by decide⟩
  · intro s t hs hp
    have ht : isValidDigits t = true := by
      obtain ⟨hne, hlen, hdig⟩ := (isValidDigits_iff s).mp hs
      refine (isValidDigits_iff t).mpr ⟨?_, ?_, fun c hc => hdig c (hp.subset hc)⟩
      · intro h0
        rw [h0] at hp
        exact hne (List.Perm.nil_eq hp).symm
      · rw [hp.length_eq]
        exact hlen
    rw [digest_valid s hs, digest_valid t ht, oddDigitSum_perm hp]
  · intro s hs heven
    rw [digest_valid s hs]
    unfold oddDigitSum
    rw [List.filter_eq_nil_iff.mpr]
    · simp
    · intro d hd
      obtain ⟨c, hc, rfl⟩ := List.mem_map.mp hd
      have := heven c hc
      simp only [decide_eq_true_eq]
      omega

/-- C4 at concrete inputs: `"3141"` has digest 5, the same as its rearrangement
`"1134"`, and `"8080"` has digest 0. -/
theorem digest_transformInput_witness :
    processString (transformInput [51, 49, 52, 49]) = oddDigitSum [51, 49, 52, 49]
    ∧ oddDigitSum [51, 49, 52, 49] = 5
    ∧ processString (transformInput [49, 49, 51, 52])
        = processString (transformInput [51, 49, 52, 49])
    ∧ processString (transformInput [56, 48, 56, 48]) = 0 :=
  ⟨digest_transformInput.1 [51, 49, 52, 49] (by decide), by decide,
   digest_transformInput.2.1 [51, 49, 52, 49] [49, 49, 51, 52] (by decide) (by decide),
   digest_transformInput.2.2.1 [56, 48, 56, 48] (by decide) (by decide)⟩

/-! ## Lemmas on the handoff slot and the loops -/

theorem take_blocked (s : State) (hb : s.buffer = []) (hf : s.finished = false) :
    take s = (TakeResult.blocked, s) := by
  simp [take, hb, hf]

theorem take_end (s : State) (hb : s.buffer = []) (hf : s.finished = true) :
    take s = (TakeResult.endSentinel, s) := by
  simp [take, hb, hf]

theorem take_item (s : State) (hb : s.buffer ≠ []) :
    take s = (TakeResult.item s.buffer, put s []) := by
  cases hbuf : s.buffer with
  | nil => exact absurd hbuf hb
  | cons c l => simp [take, hbuf, put]

theorem valid_ne_exitToken (a : CString) (ha : isValidDigits a = true) : a ≠ exitToken := by
  intro h
  rw [h] at ha
  exact absurd ha (by decide)

theorem producerConsole_valid (s : State) (a : CString) (ha : isValidDigits a = true) :
    producerConsole s a = (put s (transformInput a), [], Ctl.next) := by
  simp [producerConsole, valid_ne_exitToken a ha, ha]

theorem producerConsole_finished (s : State) (input : CString) (hf : s.finished = true) :
    (producerConsole s input).1.finished = true := by
  unfold producerConsole
  split
  · rfl
  · split
    · exact hf
    · exact hf

theorem take_finished (s : State) : (take s).2.finished = s.finished := by
  unfold take
  split
  · rfl
  · split <;> rfl

theorem consumer_finished (s : State) (wire : SendOutcome) :
    (consumer s wire).1.finished = s.finished := by
  by_cases hb : s.buffer = []
  · cases hf : s.finished with
    | false => simp [consumer, take_blocked s hb hf, hf]
    | true => simp [consumer, take_end s hb hf, hf]
  · simp only [consumer, take_item s hb]
    split
    · split
      · simp [put]
      · split <;> simp [put, closeHandle]
    · simp [put]

theorem clientReceiver_finished (s : State) (r : Recv) :
    (clientReceiver s r).1.finished = s.finished := by
  unfold clientReceiver
  split
  · rfl
  · split
    · rfl
    · split
      · dsimp only
        split <;> rfl
      · split
        · simp [closeHandle]
        · rfl

theorem acceptorThread_finished (s : State) (n : Int) :
    (acceptorThread s n).1.finished = s.finished := by
  unfold acceptorThread acceptCall
  by_cases hn : n = -1
  · simp [hn]
  · simp only [hn, if_false]
    split <;> simp [closeHandle]

theorem cstr_append_nul (l : CString) : cstr (l ++ [0]) = cstr l := by
  unfold cstr
  induction l with
  | nil => simp
  | cons c l ih =>
    rw [List.cons_append, List.takeWhile_cons, List.takeWhile_cons, ih]

theorem cstr_of_no_nul (l : CString) (h : (0 : Int) ∉ l) : cstr l = l := by
  unfold cstr
  rw [List.takeWhile_eq_self_iff]
  intro c hc
  have : c ≠ 0 := fun h0 => h (h0 ▸ hc)
  simpa using this

/-- On received data, an uninterrupted `clientReceiver` iteration sends the reply that
the steps of `exec` send. -/
theorem clientReceiver_eq_reply (s : State) (r : Recv) (hf : s.finished = false)
    (hc : s.clientSocket ≠ -1) (hr : r.received > 0) :
    clientReceiver s r = (s, [Call.send s.clientSocket (replyMessage r)], Ctl.next) := by
  unfold clientReceiver replyMessage
  simp only [hf, hc, hr, if_false, if_true, Bool.false_eq_true]
  split <;> rfl

/-- The `recv` branch of `clientReceiver` on a non-empty chunk. -/
theorem clientReceiver_chunk (s : State) (chunk : CString)
    (hf : s.finished = false) (hc : s.clientSocket ≠ -1) (hne : chunk ≠ []) :
    clientReceiver s ⟨chunk.length, chunk⟩
      = (s,
          [Call.send s.clientSocket
            (if isValidDigits ((cstr chunk).filter (fun c => decide (c ≠ 10))) = true then
              sumMessage (processString (transformInput
                ((cstr chunk).filter (fun c => decide (c ≠ 10)))))
            else errorMessage)],
          Ctl.next) := by
  have hlen : (0 : Int) < (chunk.length : Int) := by
    have := List.length_pos.mpr hne
    omega
  unfold clientReceiver
  simp only [hf, hc, if_false, Bool.false_eq_true, gt_iff_lt, hlen, if_true, Int.toNat_ofNat,
    List.take_length, cstr_append_nul]
  split <;> simp_all

theorem exec_finished (s s1 : Sys) (e : Event) (h : exec s e = some s1)
    (hf : s.shared.finished = true) : s1.shared.finished = true := by
  unfold exec at h
  split at h
  · exact absurd h (by simp)
  · cases e <;> dsimp only at h <;> repeat' (split at h)
    all_goals first
      | (simp at h; done)
      | (injection h with h
         subst h
         first
          | exact hf
          | exact producerConsole_finished _ _ hf
          | (simp [closeHandle, acceptCall, *]; done)
          | (rename_i heq
             have := take_finished s.shared
             rw [heq] at this
             exact this.trans hf))

/-- Once the producer has left its loop, no step wakes a sleeping consumer. -/
theorem exec_asleep (s s1 : Sys) (e : Event) (h : exec s e = some s1)
    (hc : s.consumerPc = ConsumerPc.asleep) (hp : s.producerPc = ProducerPc.stopped) :
    s1.consumerPc = ConsumerPc.asleep ∧ s1.producerPc = ProducerPc.stopped := by
  unfold exec at h
  split at h
  · exact absurd h (by simp)
  · cases e <;> dsimp only at h <;> repeat' (split at h)
    all_goals first
      | (simp at h; done)
      | (injection h with h
         subst h
         first
          | exact ⟨hc, hp⟩
          | simp_all)

theorem run_asleep (sched : List Event) (s s1 : Sys) (h : run s sched = some s1)
    (hc : s.consumerPc = ConsumerPc.asleep) (hp : s.producerPc = ProducerPc.stopped) :
    s1.consumerPc = ConsumerPc.asleep ∧ s1.producerPc = ProducerPc.stopped := by
  induction sched generalizing s with
  | nil =>
    simp only [run, Option.some.injEq] at h
    subst h
    exact ⟨hc, hp⟩
  | cons e rest ih =>
    simp only [run] at h
    split at h
    · rename_i s2 he
      obtain ⟨h1, h2⟩ := exec_asleep s s2 e he hc hp
      exact ih s2 h h1 h2
    · exact absurd h (by simp)

theorem run_finished (sched : List Event) (s s1 : Sys) (h : run s sched = some s1)
    (hf : s.shared.finished = true) : s1.shared.finished = true := by
  induction sched generalizing s with
  | nil =>
    simp only [run, Option.some.injEq] at h
    subst h
    exact hf
  | cons e rest ih =>
    simp only [run] at h
    split at h
    · rename_i s2 he
      exact ih s2 h (exec_finished s s2 e he hf)
    · exact absurd h (by simp)

/-! ## The claims on the handoff slot and the loops -/

/-- C5: with termination not signalled, two console iterations on validated inputs
`a` and `b` are two `put`s, of `transformInput a` and then of `transformInput b`; the
transformed strings are non-empty; the `take` that follows returns `transformInput b`
and leaves the slot empty, and a further `take` returns no item (the consumer stays
blocked), so `transformInput a` is not delivered. -/
theorem handoff_overwrite (a b : CString) (s : State)
    (ha : isValidDigits a = true) (hb : isValidDigits b = true)
    (hf : s.finished = false) :
    (producerConsole s a).1 = put s (transformInput a)
    ∧ (producerConsole (put s (transformInput a)) b).1
        = put (put s (transformInput a)) (transformInput b)
    ∧ transformInput a ≠ [] ∧ transformInput b ≠ []
    ∧ take (put (put s (transformInput a)) (transformInput b))
        = (TakeResult.item (transformInput b), put s [])
    ∧ (put s []).buffer = []
    ∧ take (put s []) = (TakeResult.blocked, put s [])
    ∧ ∀ wire : SendOutcome, consumer (put s []) wire = (put s [], [], Ctl.waiting) := by
  have hnb := transformInput_ne_nil b hb
  have hblocked : take (put s []) = (TakeResult.blocked, put s []) :=
    take_blocked (put s []) rfl hf
  refine ⟨by rw [producerConsole_valid s a ha], by rw [producerConsole_valid _ b hb],
    transformInput_ne_nil a ha, hnb, ?_, rfl, hblocked, ?_⟩
  · rw [take_item _ (by simpa [put] using hnb)]
    rfl
  · intro wire
    simp [consumer, hblocked]

/-- C5 at the inputs `"12"` and `"7"` from the initial state: the take returns `"7"`. -/
theorem handoff_overwrite_witness :
    take (put (put initial (transformInput [49, 50])) (transformInput [55]))
        = (TakeResult.item [55], put initial [])
    ∧ take (put initial []) = (TakeResult.blocked, put initial []) :=
  ⟨(handoff_overwrite [49, 50] [55] initial (by decide) (by decide) rfl).2.2.2.2.1,
   (handoff_overwrite [49, 50] [55] initial (by decide) (by decide) rfl).2.2.2.2.2.2.1⟩

/-- C6: the claim that `take` never blocks once `finished` is set fails on the code.
After the schedule `lostWakeup` the consumer is blocked in `cv.wait` with `finished`
set and the slot empty, the console thread has left its loop, and no later step of any
thread wakes the consumer.  What does hold: the console token `"exit"` sets `finished`;
a consumer that tests its predicate with `finished` set does not go to sleep, gets the
end sentinel on an empty slot (the loop exits) and the item otherwise, after which the
next test gives the end sentinel; the end sentinel is given only with `finished` set
and the slot empty; and no step of any thread resets `finished`. -/
theorem termination_lost_wakeup :
    run initialSys lostWakeup = some blockedConsumer
    ∧ (∀ (sched : List Event) (s1 : Sys), run blockedConsumer sched = some s1 →
        s1.consumerPc = ConsumerPc.asleep ∧ s1.shared.finished = true)
    ∧ (∀ s : State, (producerConsole s exitToken).1.finished = true
        ∧ (producerConsole s exitToken).2.2 = Ctl.exit)
    ∧ (∀ s : State, s.finished = true → (take s).1 ≠ TakeResult.blocked)
    ∧ (∀ s : State, s.finished = true → s.buffer = [] →
        take s = (TakeResult.endSentinel, s)
        ∧ ∀ wire : SendOutcome, consumer s wire = (s, [], Ctl.exit))
    ∧ (∀ s : State, s.finished = true → s.buffer ≠ [] →
        take s = (TakeResult.item s.buffer, put s [])
        ∧ take (put s []) = (TakeResult.endSentinel, put s []))
    ∧ (∀ s : State, (take s).1 = TakeResult.endSentinel →
        s.finished = true ∧ s.buffer = [])
    ∧ (∀ (s s1 : Sys) (e : Event), exec s e = some s1 → s.shared.finished = true →
        s1.shared.finished = true) := by
  refine ⟨by decide, ?_, ?_, ?_, ?_, ?_, ?_, exec_finished⟩
  · intro sched s1 h
    exact ⟨(run_asleep sched _ s1 h rfl rfl).1, run_finished sched _ s1 h rfl⟩
  · intro s
    simp [producerConsole]
  · intro s hf
    by_cases hb : s.buffer = []
    · rw [take_end s hb hf]
      simp
    · rw [take_item s hb]
      simp
  · intro s hf hb
    refine ⟨take_end s hb hf, ?_⟩
    intro wire
    simp [consumer, take_end s hb hf]
  · intro s hf hb
    exact ⟨take_item s hb, take_end (put s []) rfl hf⟩
  · intro s h
    by_cases hb : s.buffer = []
    · cases hf : s.finished with
      | true => exact ⟨rfl, hb⟩
      | false =>
        rw [take_blocked s hb hf] at h
        exact absurd h (by simp)
    · rw [take_item s hb] at h
      exact absurd h (by simp)

/-- C6 after the lost wake-up: a connection that is accepted afterwards and the exit of
the receiver loop leave the consumer blocked with `finished` set. -/
theorem termination_lost_wakeup_witness :
    ∃ s1 : Sys,
      run blockedConsumer
        [Event.acceptReturn 5, Event.acceptorClose, Event.acceptorAssign, Event.receiverTop]
        = some s1
      ∧ s1.receiverPc = ReceiverPc.stopped
      ∧ s1.consumerPc = ConsumerPc.asleep ∧ s1.shared.finished = true :=
  ⟨{ blockedConsumer with
      shared := { buffer := [], finished := true, clientSocket := 5, openHandles := [5] },
      receiverPc := ReceiverPc.stopped },
   by decide, rfl,
   termination_lost_wakeup.2.1
     [Event.acceptReturn 5, Event.acceptorClose, Event.acceptorAssign, Event.receiverTop]
     _ (by decide)⟩

/-- C7: the claim fails on the chunk `"12\0abc\n"`, which with its newline removed is
not a valid digit string: `clientReceiver` builds its input from the NUL-terminated
buffer, validates only `"12"` and answers `"SUM:1\n"` instead of the error line; the
console path rejects the same characters.  Besides, the reply is sent on the handle
`clientSocket` holds when `send` is called: in `misdirectedReply` the chunk is
received on connection 5 and the reply `"SUM:4\n"` is sent on connection 6.  For a
chunk without a NUL byte, in an iteration that no other thread interrupts, the one
call made is the `send` the claim describes and the state is unchanged. -/
theorem clientReceiver_nul_bypass :
    isValidDigits ([49, 50, 0, 97, 98, 99, 10].filter (fun c => decide (c ≠ 10))) = false
    ∧ clientReceiver ⟨[], false, 5, [5]⟩ ⟨7, [49, 50, 0, 97, 98, 99, 10]⟩
        = (⟨[], false, 5, [5]⟩, [Call.send 5 [83, 85, 77, 58, 49, 10]], Ctl.next)
    ∧ [Call.send 5 [83, 85, 77, 58, 49, 10]] ≠ [Call.send 5 errorMessage]
    ∧ producerConsole ⟨[], false, 5, [5]⟩ [49, 50, 0, 97, 98, 99]
        = (⟨[], false, 5, [5]⟩, [], Ctl.next)
    ∧ (run initialSys misdirectedReply).map (fun s => (s.shared, s.calls))
        = some (⟨[], false, 6, [6]⟩, [Call.close 5, Call.send 6 [83, 85, 77, 58, 52, 10]])
    ∧ (∀ (s : State) (chunk : CString), s.finished = false → s.clientSocket ≠ -1 →
        chunk ≠ [] → (0 : Int) ∉ chunk →
        clientReceiver s ⟨chunk.length, chunk⟩
          = (s,
              [Call.send s.clientSocket
                (if isValidDigits (chunk.filter (fun c => decide (c ≠ 10))) = true then
                  sumPrefix ++ to_string (processString (transformInput
                    (chunk.filter (fun c => decide (c ≠ 10))))) ++ [10]
                else errorMessage)],
              Ctl.next)) := by
  refine ⟨by decide, by decide, by decide, by decide, by decide, ?_⟩
  intro s chunk hf hc hne h0
  have h := clientReceiver_chunk s chunk hf hc hne
  rw [cstr_of_no_nul chunk h0] at h
  exact h

/-- C7 on chunks without a NUL byte: `"1234\n"` on connection 5 is answered
`"SUM:4\n"` and `"12a"` is answered with the error line. -/
theorem clientReceiver_nul_bypass_witness :
    clientReceiver ⟨[57], false, 5, [5]⟩ ⟨5, [49, 50, 51, 52, 10]⟩
      = (⟨[57], false, 5, [5]⟩, [Call.send 5 [83, 85, 77, 58, 52, 10]], Ctl.next)
    ∧ clientReceiver ⟨[57], false, 5, [5]⟩ ⟨3, [49, 50, 97]⟩
      = (⟨[57], false, 5, [5]⟩, [Call.send 5 errorMessage], Ctl.next) :=
  ⟨clientReceiver_nul_bypass.2.2.2.2.2 ⟨[57], false, 5, [5]⟩ [49, 50, 51, 52, 10] rfl
      (by decide) (by decide) (by decide),
   clientReceiver_nul_bypass.2.2.2.2.2 ⟨[57], false, 5, [5]⟩ [49, 50, 97] rfl (by decide)
      (by decide) (by decide)⟩

/-- C8: on a live connection a zero-length read closes the connection and sets
`clientSocket = -1`, leaving the slot and the termination flag as they were; a
negative result of `recv` does neither: the iteration makes no call and changes
nothing. -/
theorem clientReceiver_disconnect (s : State) (r : Recv)
    (hf : s.finished = false) (hc : s.clientSocket ≠ -1) :
    (r.received = 0 →
      clientReceiver s r
        = ({ buffer := s.buffer, finished := s.finished, clientSocket := -1,
             openHandles := s.openHandles.filter (fun h => decide (h ≠ s.clientSocket)) },
           [Call.close s.clientSocket], Ctl.next))
    ∧ (r.received < 0 → clientReceiver s r = (s, [], Ctl.next)) := by
  constructor
  · intro h0
    simp [clientReceiver, hf, hc, h0, closeHandle]
  · intro hneg
    have h1 : ¬ r.received > 0 := by omega
    have h2 : ¬ r.received = 0 := by omega
    simp [clientReceiver, hf, hc, h1, h2]

/-- C8 at connection 5 with `recv` returning `-1`: the connection stays open and
active. -/
theorem clientReceiver_disconnect_witness :
    clientReceiver ⟨[], false, 5, [5]⟩ ⟨-1, []⟩ = (⟨[], false, 5, [5]⟩, [], Ctl.next) :=
  (clientReceiver_disconnect ⟨[], false, 5, [5]⟩ ⟨-1, []⟩ rfl (by decide)).2 (by decide)

/-- C9: when the consumer takes an item `data`, then with no live connection it makes
no call; with a live connection it sends exactly `"SUM:"`, the decimal rendering of
`processString data` and `"\n"` on it.  If that `send` returns `-1` the consumer
closes the connection and sets `clientSocket = -1`, and if it returns another value
the connection is unchanged; in both cases the loop goes on.  If the `send` raises
SIGPIPE the claim fails: the process is terminated inside the call, the connection is
neither closed nor cleared and the loop does not go on.  The termination flag is
unchanged in every case. -/
theorem consumer_dispatch (s : State) (wire : SendOutcome) (data : CString)
    (ht : (take s).1 = TakeResult.item data) :
    (take s).2 = put s []
    ∧ (s.clientSocket = -1 → consumer s wire = (put s [], [], Ctl.next))
    ∧ (s.clientSocket ≠ -1 →
        sendResult s.openHandles s.clientSocket wire = SendOutcome.returned (-1) →
        consumer s wire
          = ({ buffer := [], finished := s.finished, clientSocket := -1,
               openHandles := s.openHandles.filter (fun h => decide (h ≠ s.clientSocket)) },
             [Call.send s.clientSocket (sumPrefix ++ to_string (processString data) ++ [10]),
              Call.close s.clientSocket], Ctl.next))
    ∧ (∀ sent : Int, s.clientSocket ≠ -1 → sent ≠ -1 →
        sendResult s.openHandles s.clientSocket wire = SendOutcome.returned sent →
        consumer s wire
          = (put s [],
             [Call.send s.clientSocket (sumPrefix ++ to_string (processString data) ++ [10])],
             Ctl.next))
    ∧ (s.clientSocket ≠ -1 →
        sendResult s.openHandles s.clientSocket wire = SendOutcome.killed →
        consumer s wire
          = (put s [],
             [Call.send s.clientSocket (sumPrefix ++ to_string (processString data) ++ [10])],
             Ctl.killed))
    ∧ (consumer s wire).1.finished = s.finished := by
  have hb : s.buffer ≠ [] := by
    intro hb
    cases hf : s.finished with
    | false =>
      rw [take_blocked s hb hf] at ht
      exact absurd ht (by simp)
    | true =>
      rw [take_end s hb hf] at ht
      exact absurd ht (by simp)
  have hti := take_item s hb
  have hd : s.buffer = data := by
    rw [hti] at ht
    simpa using ht
  refine ⟨by rw [hti], ?_, ?_, ?_, ?_, consumer_finished s wire⟩
  · intro h
    simp [consumer, hti, put, h]
  · intro h hs
    simp [consumer, hti, put, h, hs, hd, sumMessage, closeHandle]
  · intro sent h hne hs
    simp [consumer, hti, put, h, hs, hd, sumMessage, hne]
  · intro h hs
    simp [consumer, hti, put, h, hs, hd, sumMessage]

/-- C9 at the slot `"KV3KV1"` with connection 5 live and broken by the peer: the line
`"SUM:4\n"` is handed to `send`, the process is terminated there, connection 5 is
neither closed nor cleared. -/
theorem consumer_dispatch_witness :
    consumer ⟨[75, 86, 51, 75, 86, 49], false, 5, [5]⟩ SendOutcome.killed
      = (⟨[], false, 5, [5]⟩,
         [Call.send 5 (sumPrefix ++ to_string (processString [75, 86, 51, 75, 86, 49]) ++ [10])],
         Ctl.killed)
    ∧ sumPrefix ++ to_string (processString [75, 86, 51, 75, 86, 49]) ++ [10]
        = [83, 85, 77, 58, 52, 10] :=
  ⟨(consumer_dispatch ⟨[75, 86, 51, 75, 86, 49], false, 5, [5]⟩ SendOutcome.killed
      [75, 86, 51, 75, 86, 49] (by decide)).2.2.2.2.1 (by decide) (by decide),
   by decide⟩

end Infotecs
